import Mathlib

/- Verification of the aggregation-and-classification core of the India Air
Quality dashboard (`app.py`): the loader's cleaning and ordering, the
city/date filter, the KPI aggregations built on
`groupby('City')['AQI'].mean()` with `idxmax`/`idxmin`, and the fixed AQI
alert thresholds.  Rows are shallowly embedded as records over `String`,
`ℤ` and `Option ℚ`: a `none` AQI stands for a missing (NaN) value, dates
are integers carrying the order structure of parsed timestamps, and exact
rational arithmetic stands in for the ideal real-number semantics of the
means. -/

/-- One retained reading of the cleaned table: `app.py` keeps the `City`
column, the parsed `Date` column and the numeric columns.  Of the numeric
columns only `AQI` is consumed by the logic verified here; the six
pollutant columns are passed through to the charts untouched and carry no
constraints, so they are not represented. -/
structure Row where
  city : String
  date : ℤ
  aqi : Option ℚ
  deriving DecidableEq, Repr

/-- The sidebar selection (lines 70-79): the chosen cities and the two ends
of the inclusive date interval, `pd.Timestamp(date_range[0])` and
`pd.Timestamp(date_range[-1])`.  The chosen pollutant only selects a column
for the charts and plays no role in the verified operations. -/
structure Selection where
  cities : List String
  dateStart : ℤ
  dateEnd : ℤ
  deriving DecidableEq, Repr

/-- Lines 82-87: the boolean mask `City.isin(selected_cities) & (Date >=
start) & (Date <= end)` applied with `df.loc[mask]`, which keeps exactly
the rows satisfying the mask, in their original order. -/
def filtered_df (d : List Row) (s : Selection) : List Row :=
  d.filter (fun r =>
    s.cities.contains r.city && decide (s.dateStart ≤ r.date) && decide (r.date ≤ s.dateEnd))

/-- Line 162: `city_data = filtered_df[filtered_df['City'] == city]`. -/
def city_data (v : List Row) (c : String) : List Row :=
  v.filter (fun r => r.city == c)

/-- The four severity bands of the alert banners. -/
inductive AlertLevel where
  | good
  | moderate
  | poor
  | severe
  deriving DecidableEq, Repr

/-- A Python comparison `latest_aqi <= c` where `latest_aqi` may be NaN
(a missing AQI, embedded as `none`): comparisons with NaN are false. -/
def aqiLe (x : Option ℚ) (c : ℚ) : Bool :=
  match x with
  | none => false
  | some v => decide (v ≤ c)

/-- Lines 165-172: the `if latest_aqi <= 50 / elif <= 100 / elif <= 200 /
else` chain, applied to the possibly-missing latest AQI value. -/
def classify_latest (x : Option ℚ) : AlertLevel :=
  if aqiLe x 50 then .good
  else if aqiLe x 100 then .moderate
  else if aqiLe x 200 then .poor
  else .severe

/-- What one iteration of the alert loop emits for a city: a severity
banner or the "No recent AQI data available" line. -/
inductive AlertOut where
  | level (l : AlertLevel)
  | noData
  deriving DecidableEq, Repr

/-- Lines 161-174: for a selected city, take its rows of the filtered view;
if the AQI column exists and the city has at least one non-null AQI value,
classify `city_data['AQI'].iloc[-1]` (the AQI of the very last row, which
may itself be null); otherwise print the no-data line. -/
def city_alert (hasAQI : Bool) (v : List Row) (c : String) : AlertOut :=
  let cd := city_data v c
  if hasAQI && !(cd.filterMap (fun r => r.aqi)).isEmpty then
    .level (classify_latest (cd.getLast?.bind (fun r => r.aqi)))
  else
    .noData

/-- Arithmetic mean of a list of present values, as pandas `Series.mean()`
computes it under its default `skipna=True`: the null entries are dropped
before this is applied, and a mean over no values at all is NaN, embedded
as `none`. -/
def meanOpt (l : List ℚ) : Option ℚ :=
  if l.isEmpty then none else some (l.sum / (l.length : ℚ))

/-- Line 96: `filtered_df['AQI'].mean()` — the mean of the non-null AQI
values of the whole view, NaN (`none`) when every value is null. -/
def avg_aqi (v : List Row) : Option ℚ :=
  meanOpt (v.filterMap (fun r => r.aqi))

/-- The group keys of `filtered_df.groupby('City')` under its default
`sort=True`: the distinct cities of the view in ascending code-point
order.  The comparator is spelled `a.toList ≤ b.toList`, which is exactly
`a ≤ b` on `String` (`String.le_iff_toList_le`). -/
def citiesOf (v : List Row) : List String :=
  ((v.map (fun r => r.city)).dedup).insertionSort (fun a b => a.toList ≤ b.toList)

/-- One city's non-null AQI values within the view. -/
def aqisOf (v : List Row) (c : String) : List ℚ :=
  (city_data v c).filterMap (fun r => r.aqi)

/-- Lines 128-129: `filtered_df.groupby('City')['AQI'].mean()` as a table —
one entry per distinct city of the view, keyed in sorted order, valued by
the mean of that city's non-null AQI values, which is `none` (NaN) for a
city all of whose AQI values are null. -/
def aqi_avg (v : List Row) : List (String × Option ℚ) :=
  (citiesOf v).map (fun c => (c, meanOpt (aqisOf v c)))

/-- The grouped mean series as `idxmax`/`idxmin` see it under their default
`skipna=True`: the NaN entries are ignored. -/
def groupedMeans (v : List Row) : List (String × ℚ) :=
  (aqi_avg v).filterMap (fun p => p.2.map (fun m => (p.1, m)))

/-- `Series.idxmax`: the label of the first occurrence of the maximum
value, scanning in index order; `none` on an all-NaN series. -/
def idxmaxAux : List (String × ℚ) → Option (String × ℚ)
  | [] => none
  | p :: rest =>
    match idxmaxAux rest with
    | none => some p
    | some q => if q.2 > p.2 then some q else some p

/-- `Series.idxmin`: the label of the first occurrence of the minimum
value, scanning in index order; `none` on an all-NaN series. -/
def idxminAux : List (String × ℚ) → Option (String × ℚ)
  | [] => none
  | p :: rest =>
    match idxminAux rest with
    | none => some p
    | some q => if q.2 < p.2 then some q else some p

/-- Line 97: `filtered_df.groupby('City')['AQI'].mean().idxmax()`. -/
def worst_city (v : List Row) : Option String :=
  (idxmaxAux (groupedMeans v)).map (fun p => p.1)

/-- Line 98: `filtered_df.groupby('City')['AQI'].mean().idxmin()`. -/
def best_city (v : List Row) : Option String :=
  (idxminAux (groupedMeans v)).map (fun p => p.1)

/-- What the KPI block renders for the average-AQI metric: a metric value
(possibly NaN) or the "AQI data not found" warning. -/
inductive KPI where
  | metric (x : Option ℚ)
  | unavailable
  deriving DecidableEq, Repr

/-- Lines 95-104: the average-AQI metric is computed and shown whenever the
view has an AQI column and at least one row; otherwise the block shows the
warning placeholder. -/
def kpi_avg (hasAQI : Bool) (v : List Row) : KPI :=
  if hasAQI && !v.isEmpty then .metric (avg_aqi v) else .unavailable

theorem filtered_df_mem (d : List Row) (s : Selection) (r : Row) :
    r ∈ filtered_df d s ↔
      r ∈ d ∧ r.city ∈ s.cities ∧ s.dateStart ≤ r.date ∧ r.date ≤ s.dateEnd := by
  simp [filtered_df, List.mem_filter, and_assoc]

/-- C6: `filtered_df` keeps exactly the rows whose city is among the
selected cities and whose date lies within the inclusive interval; an empty
city selection yields an empty view (not all cities), and zero matching
rows yield an empty view rather than an error. -/
theorem c6_filter_membership (d : List Row) (s : Selection) :
    (∀ r, r ∈ filtered_df d s ↔
      r ∈ d ∧ r.city ∈ s.cities ∧ s.dateStart ≤ r.date ∧ r.date ≤ s.dateEnd) ∧
    (s.cities = [] → filtered_df d s = []) ∧
    ((∀ r ∈ d, ¬(r.city ∈ s.cities ∧ s.dateStart ≤ r.date ∧ r.date ≤ s.dateEnd)) →
      filtered_df d s = []) := by
  refine ⟨filtered_df_mem d s, ?_, ?_⟩
  · intro h
    simp [filtered_df, h]
  · intro h
    rw [List.eq_nil_iff_forall_not_mem]
    intro r hr
    rcases (filtered_df_mem d s r).1 hr with ⟨hd, hrest⟩
    exact h r hd hrest

/-- C6 witness: the membership characterisation evaluated on a concrete
dataset and selection. -/
theorem c6_witness :
    (⟨"Delhi", 5, some 80⟩ : Row) ∈
      filtered_df [⟨"Delhi", 5, some 80⟩, ⟨"Agra", 5, some 10⟩]
        ⟨["Delhi"], 0, 9⟩ :=
  ((c6_filter_membership
      [⟨"Delhi", 5, some 80⟩, ⟨"Agra", 5, some 10⟩] ⟨["Delhi"], 0, 9⟩).1
    ⟨"Delhi", 5, some 80⟩).mpr (by simp)

/-- C9: reapplying the same selection's mask to an already-filtered view
changes nothing. -/
theorem c9_filter_idempotent (d : List Row) (s : Selection) :
    filtered_df (filtered_df d s) s = filtered_df d s := by
  simp [filtered_df, List.filter_filter]

theorem sorted_mem_date_le_getLast {l : List Row}
    (hs : List.Sorted (fun a b : Row => a.date ≤ b.date) l)
    {r la : Row} (hr : r ∈ l) (hl : l.getLast? = some la) :
    r.date ≤ la.date := by
  induction l with
  | nil => cases hr
  | cons a t ih =>
    cases t with
    | nil =>
      have h1 : r = a := by simpa using hr
      have h2 : a = la := by simpa using hl
      rw [h1, h2]
    | cons b t2 =>
      have hl2 : (b :: t2).getLast? = some la := by
        rwa [List.getLast?_cons_cons] at hl
      rcases List.mem_cons.mp hr with h | h
      · have hla : la ∈ b :: t2 := by
          rcases List.mem_getLast?_eq_getLast (Option.mem_def.mpr hl2) with ⟨hne, heq⟩
          exact heq ▸ List.getLast_mem hne
        rw [h]
        exact List.rel_of_sorted_cons hs la hla
      · exact ih hs.of_cons h hl2

/-- C10: filtering preserves row order — the filtered view is a sublist of
the dataset, a timestamp-sorted dataset yields a timestamp-sorted view, and
therefore the last row of a city's slice of the view carries the maximal
date of that slice (the "latest" reading used for alerting). -/
theorem c10_filter_preserves_order (d : List Row) (s : Selection) :
    List.Sublist (filtered_df d s) d ∧
    (List.Sorted (fun a b : Row => a.date ≤ b.date) d →
      List.Sorted (fun a b : Row => a.date ≤ b.date) (filtered_df d s)) ∧
    (List.Sorted (fun a b : Row => a.date ≤ b.date) d →
      ∀ c r la, r ∈ city_data (filtered_df d s) c →
        (city_data (filtered_df d s) c).getLast? = some la →
        r.date ≤ la.date) := by
  refine ⟨List.filter_sublist d, ?_, ?_⟩
  · intro hd
    exact hd.sublist (List.filter_sublist d)
  · intro hd c r la hr hl
    have hv : List.Sorted (fun a b : Row => a.date ≤ b.date) (filtered_df d s) :=
      hd.sublist (List.filter_sublist d)
    have hc : List.Sorted (fun a b : Row => a.date ≤ b.date)
        (city_data (filtered_df d s) c) :=
      hv.sublist (List.filter_sublist _)
    exact sorted_mem_date_le_getLast hc hr hl

/-- C10 witness: the order-preservation facts evaluated on a concrete
sorted dataset. -/
theorem c10_witness :
    List.Sublist
      (filtered_df [⟨"Agra", 1, some 10⟩, ⟨"Agra", 2, some 20⟩] ⟨["Agra"], 0, 9⟩)
      [⟨"Agra", 1, some 10⟩, ⟨"Agra", 2, some 20⟩] :=
  (c10_filter_preserves_order
    [⟨"Agra", 1, some 10⟩, ⟨"Agra", 2, some 20⟩] ⟨["Agra"], 0, 9⟩).1

/-- C7: the classifier's bands on non-null values — `Good` iff the index is
at most 50, `Moderate` iff it lies in (50, 100], `Poor` iff in (100, 200],
`Severe` iff above 200 — together with the six boundary evaluations of the
spec. -/
theorem c7_classifier_boundaries :
    (∀ x : ℚ,
      (classify_latest (some x) = .good ↔ x ≤ 50) ∧
      (classify_latest (some x) = .moderate ↔ 50 < x ∧ x ≤ 100) ∧
      (classify_latest (some x) = .poor ↔ 100 < x ∧ x ≤ 200) ∧
      (classify_latest (some x) = .severe ↔ 200 < x)) ∧
    classify_latest (some 50) = .good ∧
    classify_latest (some (501 / 10)) = .moderate ∧
    classify_latest (some 100) = .moderate ∧
    classify_latest (some (1001 / 10)) = .poor ∧
    classify_latest (some 200) = .poor ∧
    classify_latest (some (2001 / 10)) = .severe := by
  have hgen : ∀ x : ℚ,
      (classify_latest (some x) = .good ↔ x ≤ 50) ∧
      (classify_latest (some x) = .moderate ↔ 50 < x ∧ x ≤ 100) ∧
      (classify_latest (some x) = .poor ↔ 100 < x ∧ x ≤ 200) ∧
      (classify_latest (some x) = .severe ↔ 200 < x) := by
    intro x
    simp only [classify_latest, aqiLe, decide_eq_true_eq]
    split_ifs with h1 h2 h3 <;>
      refine ⟨?_, ?_, ?_, ?_⟩ <;> constructor <;> intro hx <;>
        first
          | rfl
          | exact hx.elim
          | exact AlertLevel.noConfusion hx
          | (constructor <;> linarith)
          | linarith
  refine ⟨hgen, (hgen 50).1.mpr (by norm_num),
    ((hgen _).2.1).mpr ⟨by norm_num, by norm_num⟩,
    ((hgen 100).2.1).mpr ⟨by norm_num, by norm_num⟩,
    ((hgen _).2.2.1).mpr ⟨by norm_num, by norm_num⟩,
    ((hgen 200).2.2.1).mpr ⟨by norm_num, by norm_num⟩,
    ((hgen _).2.2.2).mpr (by norm_num)⟩

theorem idxmaxAux_eq_none {l : List (String × ℚ)} : idxmaxAux l = none ↔ l = [] := by
  cases l with
  | nil => simp [idxmaxAux]
  | cons p rest =>
    simp only [idxmaxAux]
    cases h : idxmaxAux rest with
    | none => simp
    | some q =>
      constructor
      · intro hq
        by_cases hlt : q.2 > p.2 <;> simp [hlt] at hq
      · intro hq
        cases hq

theorem idxmaxAux_mem {l : List (String × ℚ)} {q : String × ℚ}
    (h : idxmaxAux l = some q) : q ∈ l := by
  induction l with
  | nil => cases h
  | cons p rest ih =>
    cases hr : idxmaxAux rest with
    | none =>
      simp only [idxmaxAux, hr] at h
      cases h
      exact List.mem_cons_self _ _
    | some q2 =>
      simp only [idxmaxAux, hr] at h
      by_cases hlt : q2.2 > p.2
      · rw [if_pos hlt] at h
        cases h
        exact List.mem_cons_of_mem p (ih hr)
      · rw [if_neg hlt] at h
        cases h
        exact List.mem_cons_self _ _

theorem idxmaxAux_ge {l : List (String × ℚ)} {q : String × ℚ}
    (h : idxmaxAux l = some q) : ∀ x ∈ l, x.2 ≤ q.2 := by
  induction l generalizing q with
  | nil => cases h
  | cons p rest ih =>
    intro x hx
    cases hr : idxmaxAux rest with
    | none =>
      simp only [idxmaxAux, hr] at h
      cases h
      have hrest := idxmaxAux_eq_none.mp hr
      subst hrest
      rcases List.mem_cons.mp hx with h1 | h1
      · rw [h1]
      · cases h1
    | some q2 =>
      simp only [idxmaxAux, hr] at h
      by_cases hlt : q2.2 > p.2
      · rw [if_pos hlt] at h
        cases h
        rcases List.mem_cons.mp hx with h1 | h1
        · rw [h1]
          exact le_of_lt hlt
        · exact ih hr x h1
      · rw [if_neg hlt] at h
        cases h
        rcases List.mem_cons.mp hx with h1 | h1
        · rw [h1]
        · exact le_trans (ih hr x h1) (not_lt.mp hlt)

theorem idxmaxAux_first {l : List (String × ℚ)} {q : String × ℚ}
    (h : idxmaxAux l = some q) :
    ∃ l1 l2, l = l1 ++ q :: l2 ∧ ∀ x ∈ l1, x.2 < q.2 := by
  induction l with
  | nil => cases h
  | cons p rest ih =>
    cases hr : idxmaxAux rest with
    | none =>
      simp only [idxmaxAux, hr] at h
      cases h
      exact ⟨[], rest, rfl, by simp⟩
    | some q2 =>
      simp only [idxmaxAux, hr] at h
      by_cases hlt : q2.2 > p.2
      · rw [if_pos hlt] at h
        cases h
        rcases ih hr with ⟨l1, l2, heq, hall⟩
        refine ⟨p :: l1, l2, by rw [heq, List.cons_append], ?_⟩
        intro x hx
        rcases List.mem_cons.mp hx with h1 | h1
        · rw [h1]
          exact hlt
        · exact hall x h1
      · rw [if_neg hlt] at h
        cases h
        exact ⟨[], rest, rfl, by simp⟩

theorem idxminAux_eq_none {l : List (String × ℚ)} : idxminAux l = none ↔ l = [] := by
  cases l with
  | nil => simp [idxminAux]
  | cons p rest =>
    simp only [idxminAux]
    cases h : idxminAux rest with
    | none => simp
    | some q =>
      constructor
      · intro hq
        by_cases hlt : q.2 < p.2 <;> simp [hlt] at hq
      · intro hq
        cases hq

theorem idxminAux_mem {l : List (String × ℚ)} {q : String × ℚ}
    (h : idxminAux l = some q) : q ∈ l := by
  induction l with
  | nil => cases h
  | cons p rest ih =>
    cases hr : idxminAux rest with
    | none =>
      simp only [idxminAux, hr] at h
      cases h
      exact List.mem_cons_self _ _
    | some q2 =>
      simp only [idxminAux, hr] at h
      by_cases hlt : q2.2 < p.2
      · rw [if_pos hlt] at h
        cases h
        exact List.mem_cons_of_mem p (ih hr)
      · rw [if_neg hlt] at h
        cases h
        exact List.mem_cons_self _ _

theorem idxminAux_le {l : List (String × ℚ)} {q : String × ℚ}
    (h : idxminAux l = some q) : ∀ x ∈ l, q.2 ≤ x.2 := by
  induction l generalizing q with
  | nil => cases h
  | cons p rest ih =>
    intro x hx
    cases hr : idxminAux rest with
    | none =>
      simp only [idxminAux, hr] at h
      cases h
      have hrest := idxminAux_eq_none.mp hr
      subst hrest
      rcases List.mem_cons.mp hx with h1 | h1
      · rw [h1]
      · cases h1
    | some q2 =>
      simp only [idxminAux, hr] at h
      by_cases hlt : q2.2 < p.2
      · rw [if_pos hlt] at h
        cases h
        rcases List.mem_cons.mp hx with h1 | h1
        · rw [h1]
          exact le_of_lt hlt
        · exact ih hr x h1
      · rw [if_neg hlt] at h
        cases h
        rcases List.mem_cons.mp hx with h1 | h1
        · rw [h1]
        · exact le_trans (not_lt.mp hlt) (ih hr x h1)

theorem idxminAux_first {l : List (String × ℚ)} {q : String × ℚ}
    (h : idxminAux l = some q) :
    ∃ l1 l2, l = l1 ++ q :: l2 ∧ ∀ x ∈ l1, q.2 < x.2 := by
  induction l with
  | nil => cases h
  | cons p rest ih =>
    cases hr : idxminAux rest with
    | none =>
      simp only [idxminAux, hr] at h
      cases h
      exact ⟨[], rest, rfl, by simp⟩
    | some q2 =>
      simp only [idxminAux, hr] at h
      by_cases hlt : q2.2 < p.2
      · rw [if_pos hlt] at h
        cases h
        rcases ih hr with ⟨l1, l2, heq, hall⟩
        refine ⟨p :: l1, l2, by rw [heq, List.cons_append], ?_⟩
        intro x hx
        rcases List.mem_cons.mp hx with h1 | h1
        · rw [h1]
          exact hlt
        · exact hall x h1
      · rw [if_neg hlt] at h
        cases h
        exact ⟨[], rest, rfl, by simp⟩

theorem citiesOf_sorted (v : List Row) :
    List.Sorted (fun a b : String => a.toList ≤ b.toList) (citiesOf v) := by
  haveI : IsTotal String (fun a b : String => a.toList ≤ b.toList) :=
    ⟨fun a b => le_total a.toList b.toList⟩
  haveI : IsTrans String (fun a b : String => a.toList ≤ b.toList) :=
    ⟨fun a b c hab hbc => le_trans hab hbc⟩
  exact List.sorted_insertionSort _ _

theorem mem_citiesOf {v : List Row} {c : String} :
    c ∈ citiesOf v ↔ ∃ r ∈ v, r.city = c := by
  unfold citiesOf
  rw [(List.perm_insertionSort _ _).mem_iff, List.mem_dedup, List.mem_map]

theorem pairwise_keys_filterMap (f : String → Option (String × ℚ))
    (hf : ∀ c p, f c = some p → p.1 = c) :
    ∀ {cs : List String},
      List.Pairwise (fun a b : String => a.toList ≤ b.toList) cs →
      List.Pairwise (fun p q : String × ℚ => p.1.toList ≤ q.1.toList) (cs.filterMap f) := by
  intro cs
  induction cs with
  | nil => simp
  | cons c rest ih =>
    intro h
    rcases List.pairwise_cons.mp h with ⟨hc, ht⟩
    rw [List.filterMap_cons]
    cases hfc : f c with
    | none => exact ih ht
    | some p =>
      rw [List.pairwise_cons]
      refine ⟨?_, ih ht⟩
      intro q hq
      rcases List.mem_filterMap.mp hq with ⟨c2, hc2, hfc2⟩
      rw [hf c p hfc, hf c2 q hfc2]
      exact hc c2 hc2

theorem groupedMeans_sorted (v : List Row) :
    List.Pairwise (fun p q : String × ℚ => p.1.toList ≤ q.1.toList) (groupedMeans v) := by
  have h := pairwise_keys_filterMap
    (fun c => (meanOpt (aqisOf v c)).map (fun m => (c, m)))
    (by
      intro c p hp
      rcases Option.map_eq_some'.mp hp with ⟨m, _, hm⟩
      rw [← hm])
    (citiesOf_sorted v)
  unfold groupedMeans aqi_avg
  rw [List.filterMap_map]
  exact h

/-- A tied view: city "b" appears first in the view's row order, and both
cities have mean AQI exactly 100. -/
def tieRows : List Row := [⟨"b", 0, some 100⟩, ⟨"a", 1, some 100⟩]

theorem groupedMeans_tieRows : groupedMeans tieRows = [("a", 100), ("b", 100)] := by
  simp +decide [groupedMeans, aqi_avg, citiesOf, aqisOf, city_data, meanOpt, tieRows,
    List.insertionSort, List.orderedInsert, List.dedup_cons_of_not_mem]

theorem worst_city_tieRows : worst_city tieRows = some "a" := by
  unfold worst_city
  rw [groupedMeans_tieRows]
  simp +decide [idxmaxAux]

theorem best_city_tieRows : best_city tieRows = some "a" := by
  unfold best_city
  rw [groupedMeans_tieRows]
  simp +decide [idxminAux]

/-- C1 counterexample: in `tieRows` the cities "a" and "b" are tied at mean
AQI exactly 100 and the first qualifying row of the view belongs to "b",
yet `worst_city` and `best_city` both return "a": the tie-break follows the
sorted group-key order of `groupby('City')`, not the view's row order. -/
theorem c1_counterexample :
    (tieRows.map (fun r => r.city)).head? = some "b" ∧
    groupedMeans tieRows = [("a", 100), ("b", 100)] ∧
    worst_city tieRows = some "a" ∧
    best_city tieRows = some "a" ∧
    worst_city tieRows ≠ some "b" ∧
    best_city tieRows ≠ some "b" := by
  refine ⟨by decide, groupedMeans_tieRows, worst_city_tieRows, best_city_tieRows, ?_, ?_⟩
  · rw [worst_city_tieRows]
    decide
  · rw [best_city_tieRows]
    decide

/-- C1 (amended): `worst_city` (resp. `best_city`) returns a city whose
per-city mean is maximal (resp. minimal) among the cities with a non-null
mean; when several cities are tied exactly, the one returned is the least
tied city in the sorted group-key order (ascending city name) — the order
`groupby('City')` and the first-occurrence semantics of `idxmax`/`idxmin`
impose — not the city appearing first in the view's row order.  The result
is a pure function of the view, so repeated calls agree. -/
theorem c1_extreme_city_tiebreak (v : List Row) (c : String) :
    (worst_city v = some c →
      ∃ m, (c, m) ∈ groupedMeans v ∧
        (∀ p ∈ groupedMeans v, p.2 ≤ m) ∧
        (∀ p ∈ groupedMeans v, p.2 = m → c ≤ p.1)) ∧
    (best_city v = some c →
      ∃ m, (c, m) ∈ groupedMeans v ∧
        (∀ p ∈ groupedMeans v, m ≤ p.2) ∧
        (∀ p ∈ groupedMeans v, p.2 = m → c ≤ p.1)) := by
  constructor
  · intro h
    rcases Option.map_eq_some'.mp h with ⟨q, hq, hc⟩
    refine ⟨q.2, ?_, idxmaxAux_ge hq, ?_⟩
    · rw [← hc]
      simpa using idxmaxAux_mem hq
    · intro p hp hpm
      rcases idxmaxAux_first hq with ⟨l1, l2, heq, hall⟩
      have hsor := groupedMeans_sorted v
      rw [heq] at hsor hp
      rcases List.mem_append.mp hp with h1 | h1
      · exact absurd (hall p h1) (by rw [hpm]; exact lt_irrefl _)
      · rcases List.mem_cons.mp h1 with h2 | h2
        · rw [← hc, h2]
        · have hpair := (List.pairwise_append.mp hsor).2.1
          have hle := (List.pairwise_cons.mp hpair).1 p h2
          rw [← hc]
          exact String.le_iff_toList_le.mpr hle
  · intro h
    rcases Option.map_eq_some'.mp h with ⟨q, hq, hc⟩
    refine ⟨q.2, ?_, idxminAux_le hq, ?_⟩
    · rw [← hc]
      simpa using idxminAux_mem hq
    · intro p hp hpm
      rcases idxminAux_first hq with ⟨l1, l2, heq, hall⟩
      have hsor := groupedMeans_sorted v
      rw [heq] at hsor hp
      rcases List.mem_append.mp hp with h1 | h1
      · exact absurd (hall p h1) (by rw [hpm]; exact lt_irrefl _)
      · rcases List.mem_cons.mp h1 with h2 | h2
        · rw [← hc, h2]
        · have hpair := (List.pairwise_append.mp hsor).2.1
          have hle := (List.pairwise_cons.mp hpair).1 p h2
          rw [← hc]
          exact String.le_iff_toList_le.mpr hle

/-- C1 witness: the amended tie-break property instantiated on the tied
concrete view. -/
theorem c1_witness :
    ∃ m, (("a" : String), m) ∈ groupedMeans tieRows ∧
      (∀ p ∈ groupedMeans tieRows, p.2 ≤ m) ∧
      (∀ p ∈ groupedMeans tieRows, p.2 = m → "a" ≤ p.1) :=
  (c1_extreme_city_tiebreak tieRows "a").1 worst_city_tieRows

/-- A one-row view whose single AQI value is null. -/
def nullRows : List Row := [⟨"a", 0, none⟩]

/-- C3 counterexample: a non-empty view with an AQI column all of whose AQI
values are null — the code still takes the `mean()` branch and renders a
NaN metric; it does not produce the unavailable warning the claim
requires for the all-null case. -/
theorem c3_counterexample :
    kpi_avg true nullRows = .metric none ∧
    kpi_avg true nullRows ≠ .unavailable ∧
    (∀ r ∈ nullRows, r.aqi = none) ∧
    nullRows ≠ [] := by decide

/-- C3 (amended): the average-AQI KPI is the arithmetic mean of the
non-null AQI values, nulls excluded from both the sum and the count; the
unavailable warning appears iff the AQI column is absent or the view is
empty, while a non-empty view whose AQI values are all null yields a NaN
metric, not the warning. -/
theorem c3_overall_mean (hasAQI : Bool) (v : List Row) :
    (kpi_avg hasAQI v = .unavailable ↔ (hasAQI = false ∨ v = [])) ∧
    (v ≠ [] → kpi_avg true v =
      .metric (if v.filterMap (fun r => r.aqi) = [] then none
        else some ((v.filterMap (fun r => r.aqi)).sum /
          ((v.filterMap (fun r => r.aqi)).length : ℚ)))) := by
  constructor
  · cases hasAQI <;> cases v <;> simp [kpi_avg]
  · intro hv
    have hne : v.isEmpty = false := by
      cases v with
      | nil => exact absurd rfl hv
      | cons a t => rfl
    simp only [kpi_avg, hne, Bool.and_true, Bool.not_false, Bool.and_self, if_true,
      Bool.true_and, avg_aqi, meanOpt, List.isEmpty_eq_true]

/-- C3 witness: the amended mean property evaluated on a concrete two-row
view with mean (30 + 50) / 2 = 40. -/
theorem c3_witness :
    kpi_avg true [⟨"a", 0, some 30⟩, ⟨"a", 1, some 50⟩] = .metric (some 40) := by
  have h := (c3_overall_mean true [⟨"a", 0, some 30⟩, ⟨"a", 1, some 50⟩]).2 (by decide)
  rw [h]
  norm_num [List.filterMap_cons]
  exact fun h2 => absurd h2 (List.cons_ne_nil _ _)

theorem groupedMeans_mem {v : List Row} {c : String} {m : ℚ}
    (h : (c, m) ∈ groupedMeans v) :
    (c, some m) ∈ aqi_avg v ∧ meanOpt (aqisOf v c) = some m := by
  rcases List.mem_filterMap.mp h with ⟨p, hp, hmap⟩
  rcases List.mem_map.mp hp with ⟨c2, hc2, hpe⟩
  subst hpe
  have hmap2 : (meanOpt (aqisOf v c2)).map (fun x => (c2, x)) = some (c, m) := hmap
  rcases Option.map_eq_some'.mp hmap2 with ⟨m2, hm2, heq⟩
  injection heq with he1 he2
  subst he1
  subst he2
  refine ⟨?_, hm2⟩
  exact List.mem_map.mpr ⟨c2, hc2, by rw [hm2]⟩

/-- C4 counterexample: in the one-row view whose single AQI value is null,
the grouped mean table still contains an entry for the city — valued NaN
(`none`) — rather than excluding the city as the claim requires. -/
theorem c4_counterexample :
    aqi_avg nullRows = [("a", none)] ∧ (∀ r ∈ nullRows, r.aqi = none) := by
  constructor
  · simp +decide [aqi_avg, citiesOf, aqisOf, city_data, meanOpt, nullRows,
      List.insertionSort, List.orderedInsert, List.dedup_cons_of_not_mem]
  · decide

/-- C4 (amended): the per-city mean table `aqi_avg` has an entry exactly
for each city with at least one row in the view — a city all of whose AQI
values are null gets a `none` (NaN) entry rather than being excluded — and
a city selected as worst or best always has a non-null mean, hence at least
one non-null AQI reading in the view. -/
theorem c4_per_city_means (v : List Row) (c : String) :
    ((∃ m, (c, m) ∈ aqi_avg v) ↔ ∃ r ∈ v, r.city = c) ∧
    (worst_city v = some c → ∃ q, (c, some q) ∈ aqi_avg v ∧ aqisOf v c ≠ []) ∧
    (best_city v = some c → ∃ q, (c, some q) ∈ aqi_avg v ∧ aqisOf v c ≠ []) := by
  refine ⟨?_, ?_, ?_⟩
  · constructor
    · rintro ⟨m, hm⟩
      unfold aqi_avg at hm
      rcases List.mem_map.mp hm with ⟨c2, hc2, hpe⟩
      injection hpe with h1 h2
      subst h1
      exact mem_citiesOf.mp hc2
    · intro hr
      exact ⟨meanOpt (aqisOf v c), List.mem_map.mpr ⟨c, mem_citiesOf.mpr hr, rfl⟩⟩
  · intro h
    rcases Option.map_eq_some'.mp h with ⟨q, hq, hc⟩
    have hmem : (c, q.2) ∈ groupedMeans v := by
      rw [← hc]
      simpa using idxmaxAux_mem hq
    rcases groupedMeans_mem hmem with ⟨h1, h2⟩
    refine ⟨q.2, h1, ?_⟩
    intro hnil
    rw [hnil] at h2
    simp [meanOpt] at h2
  · intro h
    rcases Option.map_eq_some'.mp h with ⟨q, hq, hc⟩
    have hmem : (c, q.2) ∈ groupedMeans v := by
      rw [← hc]
      simpa using idxminAux_mem hq
    rcases groupedMeans_mem hmem with ⟨h1, h2⟩
    refine ⟨q.2, h1, ?_⟩
    intro hnil
    rw [hnil] at h2
    simp [meanOpt] at h2

/-- C4 witness: the amended per-city-means property instantiated at the
concrete tied view, through its worst-city selection. -/
theorem c4_witness :
    ∃ q, (("a" : String), some q) ∈ aqi_avg tieRows ∧ aqisOf tieRows "a" ≠ [] :=
  (c4_per_city_means tieRows "a").2.1 worst_city_tieRows

/-- A city whose last filtered row has a null AQI while an earlier row has
a numeric one. -/
def staleRows : List Row := [⟨"a", 0, some 40⟩, ⟨"a", 1, none⟩]

/-- C2: at `staleRows` the latest (last) row of city "a" has a null AQI
while an earlier row has AQI 40; the guard of lines 163-164 only asks for
some non-null AQI in the city's column, so the NaN latest value falls
through every `<=` comparison of lines 165-171 and a Severe banner is
emitted — not the no-data state the claim requires for a null latest
reading. -/
theorem c2_code_eval :
    (city_data staleRows "a").getLast?.bind (fun r => r.aqi) = none ∧
    staleRows.filterMap (fun r => r.aqi) ≠ [] ∧
    city_alert true staleRows "a" = .level .severe := by decide

/-- One raw input row before cleaning: the city may be missing, the
timestamp is the result of `pd.to_datetime(..., errors='coerce')` and so
may be null, and the AQI may be missing. -/
structure RawRow where
  city : Option String
  date : Option ℤ
  aqi : Option ℚ
  deriving DecidableEq, Repr

/-- Line 62: `df.dropna(subset=['City', 'Date'])` — keep a row exactly when
both the city and the parsed timestamp are present. -/
def cleanRows (l : List RawRow) : List Row :=
  l.filterMap (fun r =>
    match r.city, r.date with
    | some c, some d => some ⟨c, d, r.aqi⟩
    | _, _ => none)

/-- Line 63: `df.sort_values(by='Date')`, modelled as an insertion sort,
which establishes the sorted-by-date guarantee of the output.  pandas'
default `kind='quicksort'` additionally gives no stability guarantee for
rows with equal dates; none of the theorems below relies on the model's
tie order. -/
def insertByDate (x : Row) : List Row → List Row
  | [] => [x]
  | y :: ys => if x.date ≤ y.date then x :: y :: ys else y :: insertByDate x ys

/-- The sort underlying `sort_values(by='Date')`. -/
def sort_values : List Row → List Row
  | [] => []
  | x :: xs => insertByDate x (sort_values xs)

/-- Lines 57-63 as one function: parse, drop unusable rows, order by
date. -/
def load (l : List RawRow) : List Row :=
  sort_values (cleanRows l)

/-- The loader's error taxonomy. -/
inductive LoadError where
  | notFound
  | malformed
  deriving DecidableEq, Repr

/-- Modelled from the spec: the CSV reader's failure conditions —
`pd.read_csv` is library code outside this repository.  Per the load
contract, reading fails iff the source cannot be opened (`NotFound`) or it
has no parseable rows (`Malformed`); otherwise it yields the parsed rows. -/
inductive CsvSource where
  | missing
  | noParseableRows
  | table (rows : List RawRow)
  deriving DecidableEq, Repr

/-- The reader with the failure conditions of `CsvSource`. -/
def read_csv : CsvSource → Except LoadError (List RawRow)
  | .missing => .error .notFound
  | .noParseableRows => .error .malformed
  | .table rows => .ok rows

/-- The whole-script outcome of lines 47-52: either the script halted at
load time showing only the failure indicator, or the dashboard is built
over the loaded table. -/
inductive PipelineResult where
  | halted
  | dashboard (tbl : List Row)
  deriving DecidableEq, Repr

/-- Lines 47-52: any exception from the reader is caught, an error is
shown and `st.stop()` halts the script, so no partial dashboard is
rendered; otherwise the cleaned, ordered table becomes the dataset. -/
def runLoad (s : CsvSource) : PipelineResult :=
  match read_csv s with
  | .error _ => .halted
  | .ok rows => .dashboard (load rows)

/-- C8: loading fails — and then the entire pipeline halts with no partial
dashboard — precisely when the source cannot be opened or has no parseable
rows; any source that opens and yields parseable rows produces the
dashboard over the loaded table and never fails. -/
theorem c8_load_failure :
    (∀ s, runLoad s = .halted ↔ (s = .missing ∨ s = .noParseableRows)) ∧
    (∀ rows, runLoad (.table rows) = .dashboard (load rows)) := by
  constructor
  · intro s
    cases s <;> simp [runLoad, read_csv]
  · intro rows
    rfl

/-- C8 witness: the halting characterisation and the success case
evaluated on concrete sources. -/
theorem c8_witness :
    runLoad .missing = .halted ∧ runLoad (.table []) = .dashboard [] :=
  ⟨(c8_load_failure.1 .missing).mpr (Or.inl rfl), c8_load_failure.2 []⟩
